import Mathlib

/-
Verification of the duckdb-sharding repository's partition logic.

The embedding follows src/repository.rs and src/entity.rs.  The chrono
library calls used there (NaiveDate construction, Months arithmetic,
Duration subtraction, formatting with "%Y%m", parsing with "%Y%m%d") are
modelled after chrono 0.4's documented and implemented semantics; the
DuckDB engine is left abstract: each operation that reaches the engine is
recorded (the SQL text or an attach/create batch), and the engine's answer
to a query is a parameter of the function that issues it.
-/

namespace Sharding

/-- Calendar date: the logical view of chrono's NaiveDate as a
(year, month, day) triple. -/
structure NaiveDate where
  year : Int
  month : Nat
  day : Nat
deriving DecidableEq

/-- Proleptic Gregorian leap year, as chrono computes it. -/
def isLeapYear (y : Int) : Bool :=
  (y % 4 == 0 && y % 100 != 0) || y % 400 == 0

/-- Number of days of month m of year y. -/
def daysInMonth (y : Int) (m : Nat) : Nat :=
  match m with
  | 2 => if isLeapYear y then 29 else 28
  | 4 => 30
  | 6 => 30
  | 9 => 30
  | 11 => 30
  | _ => 31

/-- Smallest year representable by chrono's NaiveDate (i32::MIN >> 13). -/
def MIN_YEAR : Int := -262144

/-- Largest year representable by chrono's NaiveDate (i32::MAX >> 13). -/
def MAX_YEAR : Int := 262143

/-- The success condition of chrono's NaiveDate::from_ymd_opt. -/
def isValidYmd (y : Int) (m d : Nat) : Prop :=
  MIN_YEAR ≤ y ∧ y ≤ MAX_YEAR ∧ 1 ≤ m ∧ m ≤ 12 ∧ 1 ≤ d ∧ d ≤ daysInMonth y m

instance (y : Int) (m d : Nat) : Decidable (isValidYmd y m d) := by
  unfold isValidYmd; infer_instance

/-- chrono NaiveDate::from_ymd_opt. -/
def fromYmdOpt (y : Int) (m d : Nat) : Option NaiveDate :=
  if isValidYmd y m d then some ⟨y, m, d⟩ else none

/-- Every NaiveDate value produced by the Rust code satisfies this: chrono's
smart constructors make validity a type invariant. -/
def NaiveDate.Valid (d : NaiveDate) : Prop := isValidYmd d.year d.month d.day

instance (d : NaiveDate) : Decidable d.Valid := by
  unfold NaiveDate.Valid; infer_instance

/-- impl ToPartitionKey for NaiveDate (src/repository.rs:34-38):
NaiveDate::from_ymd_opt(self.year(), self.month(), 1). -/
def NaiveDate.to_partition_key (d : NaiveDate) : Option NaiveDate :=
  fromYmdOpt d.year d.month 1

/-- chrono's Ord on NaiveDate: chronological order, i.e. lexicographic on
(year, month, day). -/
def dateLe (a b : NaiveDate) : Bool :=
  decide (a.year < b.year ∨ (a.year = b.year ∧
    (a.month < b.month ∨ (a.month = b.month ∧ a.day ≤ b.day))))

/-- The ASCII digit character for a value below ten. -/
def digitChar (n : Nat) : Char := Char.ofNat (48 + n)

/-- Zero-padded 4-digit decimal rendering (used for values below 10000). -/
def pad4 (n : Nat) : List Char :=
  [digitChar (n / 1000 % 10), digitChar (n / 100 % 10),
   digitChar (n / 10 % 10), digitChar (n % 10)]

/-- Zero-padded 2-digit decimal rendering. -/
def pad2 (n : Nat) : List Char :=
  [digitChar (n / 10 % 10), digitChar (n % 10)]

/-- chrono's %Y directive when formatting: the year zero-padded to 4 digits;
years outside 0..=9999 carry an explicit sign. -/
def formatYear (y : Int) : List Char :=
  if 0 ≤ y ∧ y ≤ 9999 then pad4 y.toNat
  else if y < 0 then
    '-' :: (if y.natAbs ≤ 9999 then pad4 y.natAbs else Nat.toDigits 10 y.natAbs)
  else '+' :: Nat.toDigits 10 y.toNat

/-- date.format("%Y%m"): the canonical identifier of a date's month, used as
both the partition (database) name and the partition file's stem. -/
def formatYm (d : NaiveDate) : List Char := formatYear d.year ++ pad2 d.month

/-- The ASCII space character. -/
def spaceChar : Char := Char.ofNat 32

/-- chrono's numeric parsing skips leading spaces (s.trim_start_matches(' ')). -/
def dropSpaces : List Char → List Char
  | [] => []
  | c :: s => if c = spaceChar then dropSpaces s else c :: s

/-- chrono scan::number's digit loop: consume up to max leading ASCII digits,
accumulating their decimal value into acc. -/
def scanNumber : Nat → Nat → List Char → Nat × List Char
  | 0, acc, s => (acc, s)
  | _ + 1, acc, [] => (acc, [])
  | max + 1, acc, c :: s =>
    if c.isDigit then scanNumber max (acc * 10 + (c.toNat - 48)) s else (acc, c :: s)

/-- chrono scan::number(s, 1, max): at least one digit is required. -/
def scanNum (max : Nat) : List Char → Option (Nat × List Char)
  | [] => none
  | c :: s =>
    if c.isDigit then some (scanNumber (max - 1) (c.toNat - 48) s) else none

/-- chrono's %Y directive when parsing: leading spaces are skipped; with an
explicit sign the digit scan is greedy, otherwise at most 4 digits are read. -/
def parseYear (s : List Char) : Option (Int × List Char) :=
  match dropSpaces s with
  | [] => none
  | c :: rest =>
    if c = '-' then (scanNum rest.length rest).map fun p => (-(p.1 : Int), p.2)
    else if c = '+' then (scanNum rest.length rest).map fun p => ((p.1 : Int), p.2)
    else (scanNum 4 (c :: rest)).map fun p => ((p.1 : Int), p.2)

/-- chrono's %m and %d directives when parsing: leading spaces are skipped and
at most two digits are read. -/
def parseNum2 (s : List Char) : Option (Nat × List Char) :=
  scanNum 2 (dropSpaces s)

/-- chrono NaiveDate::parse_from_str(s, "%Y%m%d"): parse the three numeric
fields, require the input to be fully consumed, then build the date (the same
validity check as from_ymd_opt; chrono's intermediate range errors for the
month, day and year fields all collapse to the same failure). -/
def parseYmd (s : List Char) : Option NaiveDate :=
  match parseYear s with
  | none => none
  | some (y, s1) =>
    match parseNum2 s1 with
    | none => none
    | some (m, s2) =>
      match parseNum2 s2 with
      | none => none
      | some (d, s3) => if s3 = [] then fromYmdOpt y m d else none

/-- impl ToPartitionKey for PathBuf (src/repository.rs:26-31) applied to a
file's stem: format!("{}01", stem) parsed with "%Y%m%d". -/
def stemToPartitionKey (stem : List Char) : Option NaiveDate :=
  parseYmd (stem ++ ['0', '1'])

/-- chrono checked_add_months: month index arithmetic by div_euclid /
rem_euclid, the day clamped into the target month, None out of range. -/
def checkedAddMonths (d : NaiveDate) (n : Nat) : Option NaiveDate :=
  let m0 : Int := d.year * 12 + ((d.month : Int) - 1) + (n : Int)
  let y : Int := m0 / 12
  let m : Nat := (m0 % 12).toNat + 1
  let day : Nat := min d.day (daysInMonth y m)
  if isValidYmd y m day then some ⟨y, m, day⟩ else none

/-- chrono checked_sub_months. -/
def checkedSubMonths (d : NaiveDate) (n : Nat) : Option NaiveDate :=
  let m0 : Int := d.year * 12 + ((d.month : Int) - 1) - (n : Int)
  let y : Int := m0 / 12
  let m : Nat := (m0 % 12).toNat + 1
  let day : Nat := min d.day (daysInMonth y m)
  if isValidYmd y m day then some ⟨y, m, day⟩ else none

/-- Subtracting chrono Duration::days(1): the previous calendar day. -/
def predDay (d : NaiveDate) : Option NaiveDate :=
  if 1 < d.day then
    if isValidYmd d.year d.month (d.day - 1) then
      some ⟨d.year, d.month, d.day - 1⟩
    else none
  else if 1 < d.month then
    if isValidYmd d.year (d.month - 1) (daysInMonth d.year (d.month - 1)) then
      some ⟨d.year, d.month - 1, daysInMonth d.year (d.month - 1)⟩
    else none
  else if isValidYmd (d.year - 1) 12 31 then some ⟨d.year - 1, 12, 31⟩ else none

/-- fn window() (src/repository.rs:41-48), with the current date as an explicit
argument: (first_day_of_month - Months::new(12),
first_day_of_month + Months::new(1) - Duration::days(1)).  The chrono
operators used there panic outside the representable range; the panics are
modelled as none. -/
def window (today : NaiveDate) : Option (NaiveDate × NaiveDate) := do
  let firstDay ← fromYmdOpt today.year today.month 1
  let s ← checkedSubMonths firstDay 12
  let n ← checkedAddMonths firstDay 1
  let e ← predDay n
  pure (s, e)

/-- The User entity (src/entity.rs). -/
structure User where
  id : Int
  name : String
  registered_date : NaiveDate
deriving DecidableEq

/-- A DuckDB result row for the users table: typed columns as the engine
returns them for (id, name, registered_date). -/
structure Row where
  c0 : Int
  c1 : String
  c2 : NaiveDate

/-- impl TryFrom for User (src/entity.rs:16-26): read columns 0, 1, 2 into
id, name, registered_date.  On a typed users-table row the column reads
succeed, so the Ok branch is total here. -/
def user_try_from (r : Row) : User := ⟨r.c0, r.c1, r.c2⟩

/-- The row DuckDB hands back for "insert into ... values (?, ?, ?)
returning *" with parameters [id, name, registered_date]: the inserted
tuple, i.e. exactly the bound parameters in order. -/
def engineInsertRow (u : User) : Row := ⟨u.id, u.name, u.registered_date⟩

/-- The attach-and-create-table batch issued to the engine by
Repository::attach: determined by the partition file name and the key. -/
structure EngineOp where
  filename : List Char
  key : List Char
deriving DecidableEq

/-- Result of one Repository::attach call: ok is false when the call returns
Err, catalog is the databases set afterwards, issued is the engine batch that
was submitted (none when the partition was already attached). -/
structure AttachOutcome where
  ok : Bool
  catalog : List NaiveDate
  issued : Option EngineOp
deriving DecidableEq

/-- Repository::attach (src/repository.rs:89-113).  The databases HashSet is
modelled as a duplicate-free list carrying the set's (unspecified) iteration
order; engineOk tells whether the engine accepts the submitted batch (on
failure the ? operator returns before the insert into the set).  The file
name is Path::new("repositories").join(key) with extension "db". -/
def attach (c : List NaiveDate) (date : NaiveDate) (engineOk : Bool) :
    AttachOutcome :=
  match date.to_partition_key with
  | none => ⟨false, c, none⟩
  | some database =>
    if database ∈ c then ⟨true, c, none⟩
    else
      let key := formatYm date
      let op : EngineOp := ⟨"repositories/".data ++ key ++ ".db".data, key⟩
      if engineOk then ⟨true, c ++ [database], some op⟩ else ⟨false, c, some op⟩

/-- The insert statement built by Repository::create_user:
registered_date.format("insert into \"%Y%m\".users values (?, ?, ?)
returning *"). -/
def insertSql (date : NaiveDate) : List Char :=
  "insert into \"".data ++ formatYm date ++
    "\".users values (?, ?, ?) returning *".data

/-- Result of one Repository::create_user call: user is the returned row on
success (none on Err), catalog the databases set afterwards, insertedSql the
insert statement submitted to the engine (none when attach already failed). -/
structure CreateUserResult where
  user : Option User
  catalog : List NaiveDate
  insertedSql : Option (List Char)

/-- Repository::create_user (src/repository.rs:116-132): attach the user's
partition, then run the parameterized insert with params
[id, name, registered_date] and decode the returned row. -/
def create_user (c : List NaiveDate) (u : User)
    (attachEngineOk insertEngineOk : Bool) : CreateUserResult :=
  let a := attach c u.registered_date attachEngineOk
  if a.ok then
    if insertEngineOk then
      ⟨some (user_try_from (engineInsertRow u)), a.catalog,
        some (insertSql u.registered_date)⟩
    else ⟨none, a.catalog, some (insertSql u.registered_date)⟩
  else ⟨none, a.catalog, none⟩

/-- The hot-window test first_date <= date && date <= last_date. -/
def inWindow (fd ld d : NaiveDate) : Bool := dateLe fd d && dateLe d ld

/-- The filter_map stage of Repository::list_users: the %Y%m identifiers of
the catalog entries inside the window, in the catalog's iteration order. -/
def hotPartitionKeys (c : List NaiveDate) (fd ld : NaiveDate) :
    List (List Char) :=
  c.filterMap fun date => if inWindow fd ld date then some (formatYm date) else none

/-- The catalog entries inside the window, in the catalog's iteration order. -/
def hotDates (c : List NaiveDate) (fd ld : NaiveDate) : List NaiveDate :=
  c.filter fun date => inWindow fd ld date

/-- One per-partition select of the merged query. -/
def selectSql (key : List Char) : List Char :=
  "select * from \"".data ++ key ++ "\".users".data

/-- The partitions vector of Repository::list_users: one select statement per
hot partition. -/
def hotSelects (c : List NaiveDate) (fd ld : NaiveDate) : List (List Char) :=
  (hotPartitionKeys c fd ld).map selectSql

/-- The view-rebuilding statement of Repository::list_users: the selects
joined by "union all", prefixed by the create-view clause. -/
def viewSql (selects : List (List Char)) : List Char :=
  "create or replace view users as ".data ++
    List.intercalate "\nunion all\n".data selects

/-- Result of one Repository::list_users call: the returned value (the
anyhow context wrapper keeps an engine failure an error) and the batch
submitted to the engine, none when no query was issued. -/
structure ListUsersResult where
  result : Except Unit (List User)
  issuedSql : Option (List Char)

/-- Repository::list_users (src/repository.rs:137-175), with the current date
explicit and the engine's answer to the merged query (the view rebuild, the
select and the row decoding) as a parameter.  The outer none models the
panic of window() outside the representable range. -/
def list_users (c : List NaiveDate) (today : NaiveDate)
    (engine : Except Unit (List User)) : Option ListUsersResult :=
  (window today).map fun w =>
    let partitions := hotSelects c w.1 w.2
    if partitions = [] then ⟨Except.ok [], none⟩
    else
      match engine with
      | Except.ok users => ⟨Except.ok users, some (viewSql partitions)⟩
      | Except.error e => ⟨Except.error e, some (viewSql partitions)⟩

/-- The catalog states reachable through the repository's operations:
Repository::new starts from the empty set and attaches the keys parsed from
the partition folder's file stems (step_load); attach may be reached with any
date (step_attach); create_user mutates the catalog only through its inner
attach (step_create); list_users never mutates it. -/
inductive Reachable : List NaiveDate → Prop
  | init : Reachable []
  | step_attach (c : List NaiveDate) (d : NaiveDate) (b : Bool) :
      Reachable c → Reachable (attach c d b).catalog
  | step_load (c : List NaiveDate) (stem : List Char) (d : NaiveDate) (b : Bool) :
      Reachable c → stemToPartitionKey stem = some d →
      Reachable (attach c d b).catalog
  | step_create (c : List NaiveDate) (u : User) (a i : Bool) :
      Reachable c → Reachable (create_user c u a i).catalog


/-- Every month has at least 28 days. -/
theorem daysInMonth_pos (y : Int) (m : Nat) : 1 ≤ daysInMonth y m := by
  unfold daysInMonth
  split
  · split <;> omega
  all_goals omega

/-- Helper: on any valid date the partition key computation succeeds and
yields the first of the same month. -/
theorem key_of_valid (d : NaiveDate) (h : d.Valid) :
    d.to_partition_key = some ⟨d.year, d.month, 1⟩ := by
  obtain ⟨h1, h2, h3, h4, h5, h6⟩ := h
  unfold NaiveDate.to_partition_key fromYmdOpt
  rw [if_pos]
  exact ⟨h1, h2, h3, h4, le_refl 1, daysInMonth_pos _ _⟩

/-- Claim C5: for every valid calendar date d, the partition key computation
succeeds (never returns none) and yields the key with day 1 and the same year
and month as d; hence the unwrap inside Repository::attach cannot panic. -/
theorem partition_key_total (d : NaiveDate) (h : d.Valid) :
    d.to_partition_key = some ⟨d.year, d.month, 1⟩ :=
  key_of_valid d h

/-- Witness for C5 at the concrete date 2024-02-29. -/
theorem partition_key_total_witness :
    NaiveDate.to_partition_key ⟨2024, 2, 29⟩ = some ⟨2024, 2, 1⟩ :=
  partition_key_total ⟨2024, 2, 29⟩ (by decide)

/-- Claim C2: for every current date (away from chrono's extreme years, where
the code would panic), the hot window is [first day of the month 12 months
earlier, last day of the current month]. -/
theorem window_hot_range (today : NaiveDate) (h : today.Valid)
    (hlo : MIN_YEAR < today.year) (hhi : today.year < MAX_YEAR) :
    window today =
      some (⟨today.year - 1, today.month, 1⟩,
            ⟨today.year, today.month, daysInMonth today.year today.month⟩) := by
  obtain ⟨y, m, day⟩ := today
  obtain ⟨h1, h2, h3, h4, h5, h6⟩ := h
  simp only at h1 h2 h3 h4 h5 h6 hlo hhi
  have hfirst : fromYmdOpt y m 1 = some ⟨y, m, 1⟩ := by
    unfold fromYmdOpt
    rw [if_pos]
    exact ⟨h1, h2, h3, h4, le_refl 1, daysInMonth_pos _ _⟩
  have hsub : checkedSubMonths ⟨y, m, 1⟩ 12 = some ⟨y - 1, m, 1⟩ := by
    unfold checkedSubMonths
    have e1 : (y * 12 + ((m : Int) - 1) - (12 : Nat)) / 12 = y - 1 := by
      push_cast
      omega
    have e2 : ((y * 12 + ((m : Int) - 1) - (12 : Nat)) % 12).toNat + 1 = m := by
      push_cast
      omega
    simp only [e1, e2]
    have hmin : min 1 (daysInMonth (y - 1) m) = 1 :=
      Nat.min_eq_left (daysInMonth_pos _ _)
    rw [hmin, if_pos]
    exact ⟨by omega, by omega, h3, h4, le_refl 1, daysInMonth_pos _ _⟩
  by_cases hm12 : m = 12
  · subst hm12
    have hadd : checkedAddMonths ⟨y, 12, 1⟩ 1 = some ⟨y + 1, 1, 1⟩ := by
      unfold checkedAddMonths
      have e1 : (y * 12 + ((12 : Nat) - 1 : Int) + (1 : Nat)) / 12 = y + 1 := by
        push_cast
        omega
      have e2 : ((y * 12 + ((12 : Nat) - 1 : Int) + (1 : Nat)) % 12).toNat + 1 = 1 := by
        push_cast
        omega
      simp only [e1, e2]
      have hmin : min 1 (daysInMonth (y + 1) 1) = 1 :=
        Nat.min_eq_left (daysInMonth_pos _ _)
      rw [hmin, if_pos]
      exact ⟨by omega, by omega, le_refl 1, by omega, le_refl 1, daysInMonth_pos _ _⟩
    have hpred : predDay ⟨y + 1, 1, 1⟩ = some ⟨y, 12, 31⟩ := by
      unfold predDay
      simp only
      rw [if_neg (by omega), if_neg (by omega)]
      have : y + 1 - 1 = y := by omega
      rw [this, if_pos]
      have h31 : daysInMonth y 12 = 31 := rfl
      exact ⟨h1, h2, by omega, le_refl 12, by omega, by rw [h31]⟩
    simp only [window, Option.bind_eq_bind, hfirst, Option.some_bind, hsub, hadd, hpred]
    rfl
  · have hm11 : m ≤ 11 := by omega
    have hadd : checkedAddMonths ⟨y, m, 1⟩ 1 = some ⟨y, m + 1, 1⟩ := by
      unfold checkedAddMonths
      have e1 : (y * 12 + ((m : Int) - 1) + (1 : Nat)) / 12 = y := by
        push_cast
        omega
      have e2 : ((y * 12 + ((m : Int) - 1) + (1 : Nat)) % 12).toNat + 1 = m + 1 := by
        push_cast
        omega
      simp only [e1, e2]
      have hmin : min 1 (daysInMonth y (m + 1)) = 1 :=
        Nat.min_eq_left (daysInMonth_pos _ _)
      rw [hmin, if_pos]
      exact ⟨h1, h2, by omega, by omega, le_refl 1, daysInMonth_pos _ _⟩
    have hpred : predDay ⟨y, m + 1, 1⟩ = some ⟨y, m, daysInMonth y m⟩ := by
      unfold predDay
      simp only
      rw [if_neg (by omega), if_pos (by omega : 1 < m + 1)]
      have : m + 1 - 1 = m := by omega
      rw [this, if_pos]
      exact ⟨h1, h2, h3, h4, daysInMonth_pos _ _, le_refl _⟩
    simp only [window, Option.bind_eq_bind, hfirst, Option.some_bind, hsub, hadd, hpred]
    rfl

/-- Witness for C2 at the concrete current date 2024-06-01. -/
theorem window_hot_range_witness :
    window ⟨2024, 6, 1⟩ = some (⟨2023, 6, 1⟩, ⟨2024, 6, 30⟩) :=
  window_hot_range ⟨2024, 6, 1⟩ (by decide) (by decide) (by decide)

/-- Helper: attach only ever grows the catalog. -/
theorem attach_catalog_mono (c : List NaiveDate) (d : NaiveDate) (b : Bool)
    (k : NaiveDate) (h : k ∈ c) : k ∈ (attach c d b).catalog := by
  unfold attach
  cases hdb : d.to_partition_key with
  | none => exact h
  | some db =>
    simp only
    split_ifs
    · exact h
    · exact List.mem_append_left _ h
    · exact h

/-- Claim C1: attach is idempotent per month.  A successful attach of d's
month puts the month's key into the catalog; the key survives every later
attach call; and while the key is present, an attach for any date of the
same month succeeds, leaves the catalog unchanged and submits nothing to the
engine. -/
theorem attach_idempotent_same_month (d e : NaiveDate) (hd : d.Valid)
    (he : e.Valid) (hy : e.year = d.year) (hm : e.month = d.month) :
    (∀ c b, (attach c d b).ok = true →
        (⟨d.year, d.month, 1⟩ : NaiveDate) ∈ (attach c d b).catalog)
    ∧ (∀ c f b, (⟨d.year, d.month, 1⟩ : NaiveDate) ∈ c →
        (⟨d.year, d.month, 1⟩ : NaiveDate) ∈ (attach c f b).catalog)
    ∧ (∀ c b, (⟨d.year, d.month, 1⟩ : NaiveDate) ∈ c →
        attach c e b = ⟨true, c, none⟩) := by
  refine ⟨?_, ?_, ?_⟩
  · intro c b hok
    unfold attach at hok ⊢
    rw [key_of_valid d hd] at hok ⊢
    simp only at hok ⊢
    split_ifs at hok ⊢ with h1 h2
    · exact h1
    · exact List.mem_append_right _ (List.mem_singleton.mpr rfl)
  · intro c f b h
    exact attach_catalog_mono c f b _ h
  · intro c b h
    have hk : e.to_partition_key = some ⟨d.year, d.month, 1⟩ := by
      rw [key_of_valid e he, hy, hm]
    unfold attach
    rw [hk]
    simp only
    rw [if_pos h]

/-- Witness for C1: after attaching 2024-01-10's month, an attach for
2024-01-31 (even with a failing engine) is a successful no-op. -/
theorem attach_idempotent_same_month_witness :
    attach (attach [] ⟨2024, 1, 10⟩ true).catalog ⟨2024, 1, 31⟩ false =
      ⟨true, (attach [] ⟨2024, 1, 10⟩ true).catalog, none⟩ :=
  (attach_idempotent_same_month ⟨2024, 1, 10⟩ ⟨2024, 1, 31⟩ (by decide)
      (by decide) rfl rfl).2.2 _ false (by decide)

/-- Helper: attach keeps every catalog entry normalized to day 1. -/
theorem attach_day_one (c : List NaiveDate) (d : NaiveDate) (b : Bool)
    (hc : ∀ k ∈ c, k.day = 1) : ∀ k ∈ (attach c d b).catalog, k.day = 1 := by
  unfold attach
  cases hdb : d.to_partition_key with
  | none => exact hc
  | some db =>
    have hdb1 : db.day = 1 := by
      unfold NaiveDate.to_partition_key fromYmdOpt at hdb
      split_ifs at hdb with hv
      cases hdb
      rfl
    simp only
    split_ifs
    · exact hc
    · intro k hk
      rcases List.mem_append.mp hk with h | h
      · exact hc k h
      · rw [List.mem_singleton.mp h]
        exact hdb1
    · exact hc

/-- Helper: create_user changes the catalog exactly as its inner attach. -/
theorem create_user_catalog (c : List NaiveDate) (u : User) (a i : Bool) :
    (create_user c u a i).catalog = (attach c u.registered_date a).catalog := by
  simp only [create_user]
  split_ifs <;> rfl

/-- Claim C10: in every catalog state reachable through new, attach,
create_user and list_users, every attached partition key is normalized:
its day component is 1. -/
theorem reachable_catalog_day_one (c : List NaiveDate) (h : Reachable c) :
    ∀ k ∈ c, k.day = 1 := by
  induction h with
  | init => intro k hk; cases hk
  | step_attach c d b hr ih => exact attach_day_one c d b ih
  | step_load c stem d b hr hp ih => exact attach_day_one c d b ih
  | step_create c u a i hr ih =>
    rw [create_user_catalog]
    exact attach_day_one c u.registered_date a ih

/-- Witness for C10: the catalog reached by attaching 2024-01-10 contains
only day-1 keys; its sole element 2024-01-01 has day 1. -/
theorem reachable_catalog_day_one_witness :
    Reachable (attach [] ⟨2024, 1, 10⟩ true).catalog ∧
      NaiveDate.day ⟨2024, 1, 1⟩ = 1 :=
  ⟨Reachable.step_attach [] ⟨2024, 1, 10⟩ true Reachable.init,
    reachable_catalog_day_one _
      (Reachable.step_attach [] ⟨2024, 1, 10⟩ true Reachable.init)
      ⟨2024, 1, 1⟩ (by decide)⟩

/-- Helper: the filter_map stage equals filtering then formatting, so the
merged query's identifiers appear in the catalog's iteration order. -/
theorem hotPartitionKeys_eq_map (c : List NaiveDate) (fd ld : NaiveDate) :
    hotPartitionKeys c fd ld = (hotDates c fd ld).map formatYm := by
  unfold hotPartitionKeys hotDates
  induction c with
  | nil => rfl
  | cons d t ih =>
    rw [List.filterMap_cons, List.filter_cons]
    by_cases h : inWindow fd ld d = true
    · simp only [h, if_pos, List.map_cons]
      rw [ih]
    · simp only [h]
      simp only [Bool.false_eq_true, if_false, ih]

/-- Claim C4 (amended): list_users selects exactly the attached partition
keys inside the hot window, and assembles their identifiers in the catalog's
iteration order (the HashSet's unspecified order), not in ascending key
order. -/
theorem hot_selection_catalog_order (c : List NaiveDate) (fd ld : NaiveDate) :
    hotPartitionKeys c fd ld = (hotDates c fd ld).map formatYm
    ∧ hotSelects c fd ld = ((hotDates c fd ld).map formatYm).map selectSql
    ∧ ∀ d : NaiveDate, d ∈ hotDates c fd ld ↔ d ∈ c ∧ inWindow fd ld d = true := by
  refine ⟨hotPartitionKeys_eq_map c fd ld, ?_, ?_⟩
  · rw [hotSelects, hotPartitionKeys_eq_map]
  · intro d
    unfold hotDates
    exact List.mem_filter

/-- Counterexample for C4 as stated: with the catalog iterating as
[2024-05-01, 2024-04-01] and now = 2024-06-01, both keys are hot and are
assembled in that order, which is not ascending. -/
theorem hot_selection_order_counterexample :
    (window ⟨2024, 6, 1⟩).map
        (fun w => hotDates [⟨2024, 5, 1⟩, ⟨2024, 4, 1⟩] w.1 w.2) =
      some [⟨2024, 5, 1⟩, ⟨2024, 4, 1⟩]
    ∧ ¬ List.Pairwise (fun a b => dateLe a b = true)
        [(⟨2024, 5, 1⟩ : NaiveDate), ⟨2024, 4, 1⟩] := by
  refine ⟨rfl, ?_⟩
  intro h
  have h2 := (List.pairwise_cons.mp h).1 ⟨2024, 4, 1⟩ (List.mem_singleton.mpr rfl)
  exact absurd h2 (by decide)

/-- Claim C3 (amended): when the merged query's execution fails, list_users
propagates the error to the caller (anyhow's context keeps it an error); it
does not substitute an empty result. -/
theorem list_users_propagates_error (c : List NaiveDate) (today : NaiveDate)
    (w : NaiveDate × NaiveDate) (hw : window today = some w)
    (hne : hotSelects c w.1 w.2 ≠ []) :
    list_users c today (Except.error ()) =
      some ⟨Except.error (), some (viewSql (hotSelects c w.1 w.2))⟩ := by
  unfold list_users
  rw [hw]
  simp only [Option.map_some']
  rw [if_neg hne]

/-- Witness for the amended C3 at a concrete state: one hot partition,
engine failure. -/
theorem list_users_propagates_error_witness :
    list_users [⟨2024, 5, 1⟩] ⟨2024, 6, 1⟩ (Except.error ()) =
      some ⟨Except.error (),
        some (viewSql (hotSelects [⟨2024, 5, 1⟩] ⟨2023, 6, 1⟩ ⟨2024, 6, 30⟩))⟩ :=
  list_users_propagates_error [⟨2024, 5, 1⟩] ⟨2024, 6, 1⟩
    (⟨2023, 6, 1⟩, ⟨2024, 6, 30⟩) rfl (by decide)

/-- Counterexample for C3 as stated: with one hot partition and a failing
merged query, list_users returns the error, not Ok with an empty sequence. -/
theorem list_users_error_swallow_counterexample :
    (list_users [⟨2024, 5, 1⟩] ⟨2024, 6, 1⟩ (Except.error ())).map
        ListUsersResult.result = some (Except.error ()) := rfl

/-- Claim C8: when no attached partition key lies in the hot window (in
particular with an empty catalog), list_users returns Ok with the empty list,
for every possible engine answer, and submits no query to the engine. -/
theorem list_users_no_hot_empty (c : List NaiveDate) (today : NaiveDate)
    (engine : Except Unit (List User)) (w : NaiveDate × NaiveDate)
    (hw : window today = some w) (h : ∀ d ∈ c, inWindow w.1 w.2 d = false) :
    list_users c today engine = some ⟨Except.ok [], none⟩ := by
  have hkeys : hotPartitionKeys c w.1 w.2 = [] := by
    unfold hotPartitionKeys
    rw [List.filterMap_eq_nil_iff]
    intro d hd
    rw [h d hd]
    rfl
  have hsel : hotSelects c w.1 w.2 = [] := by
    rw [hotSelects, hkeys]
    rfl
  unfold list_users
  rw [hw]
  simp only [Option.map_some']
  rw [if_pos hsel]

/-- Witness for C8: empty catalog, failing engine, now = 2024-06-01. -/
theorem list_users_no_hot_empty_witness :
    list_users [] ⟨2024, 6, 1⟩ (Except.error ()) = some ⟨Except.ok [], none⟩ :=
  list_users_no_hot_empty [] ⟨2024, 6, 1⟩ (Except.error ())
    (⟨2023, 6, 1⟩, ⟨2024, 6, 30⟩) rfl (by intro d hd; cases hd)

/-- Claim C7: whenever create_user succeeds, the returned row equals the
input record in all fields, the submitted insert statement is the one built
from the record's date, and that statement addresses exactly the identifier
of the date's partition key. -/
theorem create_user_roundtrip (c : List NaiveDate) (u : User) (ao io : Bool)
    (v : User) (h : (create_user c u ao io).user = some v) :
    v = u
    ∧ (create_user c u ao io).insertedSql = some (insertSql u.registered_date)
    ∧ ∀ k, u.registered_date.to_partition_key = some k →
        insertSql u.registered_date =
          "insert into \"".data ++ formatYm k ++
            "\".users values (?, ?, ?) returning *".data := by
  simp only [create_user] at h ⊢
  split_ifs at h ⊢ with h1 h2
  · refine ⟨?_, rfl, ?_⟩
    · cases h
      rfl
    · intro k hk
      unfold NaiveDate.to_partition_key fromYmdOpt at hk
      split_ifs at hk
      cases hk
      rfl

/-- Witness for C7 at a concrete record. -/
theorem create_user_roundtrip_witness :
    (create_user [] ⟨1, "Alice", ⟨2024, 1, 10⟩⟩ true true).user =
        some ⟨1, "Alice", ⟨2024, 1, 10⟩⟩
    ∧ (create_user [] ⟨1, "Alice", ⟨2024, 1, 10⟩⟩ true true).insertedSql =
        some (insertSql ⟨2024, 1, 10⟩) :=
  ⟨rfl, (create_user_roundtrip [] ⟨1, "Alice", ⟨2024, 1, 10⟩⟩ true true
      ⟨1, "Alice", ⟨2024, 1, 10⟩⟩ rfl).2.1⟩

/-- Claim C9: the insert statement's text depends only on the year and month
of the record's registered date; the id and name fields are bound as
parameters and never reach the statement text. -/
theorem insert_sql_month_only (u1 u2 : User)
    (hy : u1.registered_date.year = u2.registered_date.year)
    (hm : u1.registered_date.month = u2.registered_date.month) :
    insertSql u1.registered_date = insertSql u2.registered_date := by
  unfold insertSql formatYm
  rw [hy, hm]

/-- Witness for C9: two records with different ids, names and days of the
same month produce the same statement. -/
theorem insert_sql_month_only_witness :
    insertSql (⟨2024, 1, 10⟩ : NaiveDate) = insertSql ⟨2024, 1, 31⟩ :=
  insert_sql_month_only ⟨1, "Alice", ⟨2024, 1, 10⟩⟩ ⟨2, "Bob", ⟨2024, 1, 31⟩⟩
    rfl rfl

/-- Helper: the digit character of a value below ten is an ASCII digit. -/
theorem digitChar_isDigit (k : Nat) (h : k ≤ 9) : (digitChar k).isDigit = true := by
  interval_cases k <;> decide

/-- Helper: the code of a digit character recovers its value. -/
theorem digitChar_toNat (k : Nat) (h : k ≤ 9) : (digitChar k).toNat = 48 + k := by
  interval_cases k <;> decide

/-- Helper: an ASCII digit is not the minus sign. -/
theorem isDigit_ne_minus {c : Char} (h : c.isDigit = true) : ¬(c = '-') := by
  intro he
  subst he
  exact absurd h (by decide)

/-- Helper: an ASCII digit is not the plus sign. -/
theorem isDigit_ne_plus {c : Char} (h : c.isDigit = true) : ¬(c = '+') := by
  intro he
  subst he
  exact absurd h (by decide)

/-- Helper: an ASCII digit is not a space. -/
theorem isDigit_ne_space {c : Char} (h : c.isDigit = true) : ¬(c = spaceChar) := by
  intro he
  subst he
  exact absurd h (by decide)

/-- Helper: dropSpaces is the identity on a list not starting with a space. -/
theorem dropSpaces_cons {c : Char} (s : List Char) (h : ¬(c = spaceChar)) :
    dropSpaces (c :: s) = c :: s := by
  unfold dropSpaces
  rw [if_neg h]

/-- Helper: the digit scan stops when the width budget is exhausted. -/
theorem scanNumber_zero (acc : Nat) (s : List Char) : scanNumber 0 acc s = (acc, s) := by
  cases s <;> rfl

/-- Helper: the digit scan consumes one leading digit. -/
theorem scanNumber_digit (n acc : Nat) {c : Char} (s : List Char)
    (h : c.isDigit = true) :
    scanNumber (n + 1) acc (c :: s) = scanNumber n (acc * 10 + (c.toNat - 48)) s := by
  simp [scanNumber, h]

/-- Helper: a width-4 scan of four digits consumes exactly those four. -/
theorem scanNum_four {c1 c2 c3 c4 : Char} (rest : List Char)
    (h1 : c1.isDigit = true) (h2 : c2.isDigit = true)
    (h3 : c3.isDigit = true) (h4 : c4.isDigit = true) :
    scanNum 4 (c1 :: c2 :: c3 :: c4 :: rest) =
      some ((((c1.toNat - 48) * 10 + (c2.toNat - 48)) * 10 + (c3.toNat - 48)) * 10
          + (c4.toNat - 48), rest) := by
  simp only [scanNum, h1, if_true]
  norm_num
  rw [scanNumber_digit _ _ _ h2, scanNumber_digit _ _ _ h3,
    scanNumber_digit _ _ _ h4, scanNumber_zero]

/-- Helper: a width-2 scan of two digits consumes exactly those two. -/
theorem scanNum_two {c1 c2 : Char} (rest : List Char)
    (h1 : c1.isDigit = true) (h2 : c2.isDigit = true) :
    scanNum 2 (c1 :: c2 :: rest) =
      some ((c1.toNat - 48) * 10 + (c2.toNat - 48), rest) := by
  simp only [scanNum, h1, if_true]
  norm_num
  rw [scanNumber_digit _ _ _ h2, scanNumber_zero]

/-- Helper: on input starting with anything but a sign or space, the year
field is an unsigned width-4 scan. -/
theorem parseYear_eq {c : Char} (rest : List Char) (hns : ¬(c = spaceChar))
    (hnm : ¬(c = '-')) (hnp : ¬(c = '+')) :
    parseYear (c :: rest) =
      (scanNum 4 (c :: rest)).map fun p => ((p.1 : Int), p.2) := by
  unfold parseYear
  rw [dropSpaces_cons rest hns]
  simp only
  rw [if_neg hnm, if_neg hnp]

/-- Helper: the roundtrip direction of the identifier policy. -/
theorem stem_of_formatYm (k : NaiveDate) (hv : k.Valid) (hd1 : k.day = 1)
    (hy0 : 0 ≤ k.year) (hy9 : k.year ≤ 9999) :
    stemToPartitionKey (formatYm k) = some k := by
  obtain ⟨y, m, day⟩ := k
  simp only at hd1 hy0 hy9 ⊢
  subst hd1
  obtain ⟨hv1, hv2, hv3, hv4, hv5, hv6⟩ := hv
  have hny : ((y.toNat : Int)) = y := Int.toNat_of_nonneg hy0
  have hfmt : formatYm ⟨y, m, 1⟩ = pad4 y.toNat ++ pad2 m := by
    unfold formatYm formatYear
    rw [if_pos ⟨hy0, hy9⟩]
  rw [hfmt]
  unfold stemToPartitionKey pad4 pad2
  have d1 := digitChar_isDigit (y.toNat / 1000 % 10) (by omega)
  have d2 := digitChar_isDigit (y.toNat / 100 % 10) (by omega)
  have d3 := digitChar_isDigit (y.toNat / 10 % 10) (by omega)
  have d4 := digitChar_isDigit (y.toNat % 10) (by omega)
  have d5 := digitChar_isDigit (m / 10 % 10) (by omega)
  have d6 := digitChar_isDigit (m % 10) (by omega)
  have e1 : parseYear (digitChar (y.toNat / 1000 % 10) :: digitChar (y.toNat / 100 % 10)
      :: digitChar (y.toNat / 10 % 10) :: digitChar (y.toNat % 10)
      :: digitChar (m / 10 % 10) :: digitChar (m % 10) :: '0' :: '1' :: []) =
      some ((y : Int),
        digitChar (m / 10 % 10) :: digitChar (m % 10) :: '0' :: '1' :: []) := by
    rw [parseYear_eq _ (isDigit_ne_space d1) (isDigit_ne_minus d1) (isDigit_ne_plus d1)]
    rw [scanNum_four _ d1 d2 d3 d4]
    simp only [Option.map_some']
    rw [digitChar_toNat _ (by omega), digitChar_toNat _ (by omega),
      digitChar_toNat _ (by omega), digitChar_toNat _ (by omega)]
    have hval : ((((48 + y.toNat / 1000 % 10) - 48) * 10 + ((48 + y.toNat / 100 % 10) - 48)) * 10
        + ((48 + y.toNat / 10 % 10) - 48)) * 10 + ((48 + y.toNat % 10) - 48) = y.toNat := by
      have hb : y.toNat ≤ 9999 := by omega
      omega
    rw [hval, hny]
  have e2 : parseNum2 (digitChar (m / 10 % 10) :: digitChar (m % 10) :: '0' :: '1' :: []) =
      some (m, ['0', '1']) := by
    unfold parseNum2
    rw [dropSpaces_cons _ (isDigit_ne_space d5)]
    rw [scanNum_two _ d5 d6]
    rw [digitChar_toNat _ (by omega), digitChar_toNat _ (by omega)]
    have hval : ((48 + m / 10 % 10) - 48) * 10 + ((48 + m % 10) - 48) = m := by
      have hb : m ≤ 12 := hv4
      omega
    rw [hval]
  have e3 : parseNum2 ['0', '1'] = some (1, []) := by decide
  have hl : (digitChar (y.toNat / 1000 % 10) :: digitChar (y.toNat / 100 % 10)
      :: digitChar (y.toNat / 10 % 10) :: [digitChar (y.toNat % 10)]
      ++ [digitChar (m / 10 % 10), digitChar (m % 10)]) ++ ['0', '1'] =
      digitChar (y.toNat / 1000 % 10) :: digitChar (y.toNat / 100 % 10)
      :: digitChar (y.toNat / 10 % 10) :: digitChar (y.toNat % 10)
      :: digitChar (m / 10 % 10) :: digitChar (m % 10) :: '0' :: '1' :: [] := by
    simp
  rw [hl]
  simp only [parseYmd, e1, e2, e3]
  rw [if_pos trivial]
  unfold fromYmdOpt
  rw [if_pos]
  exact ⟨hv1, hv2, hv3, hv4, le_refl 1, daysInMonth_pos _ _⟩

/-- Helper: a six-digit stem whose month part is not a valid month number
parses to none. -/
theorem six_digit_invalid_month (c1 c2 c3 c4 c5 c6 : Char)
    (h1 : c1.isDigit = true) (h2 : c2.isDigit = true) (h3 : c3.isDigit = true)
    (h4 : c4.isDigit = true) (h5 : c5.isDigit = true) (h6 : c6.isDigit = true)
    (hm : ¬(1 ≤ (c5.toNat - 48) * 10 + (c6.toNat - 48)
        ∧ (c5.toNat - 48) * 10 + (c6.toNat - 48) ≤ 12)) :
    stemToPartitionKey [c1, c2, c3, c4, c5, c6] = none := by
  unfold stemToPartitionKey
  have hl : ([c1, c2, c3, c4, c5, c6] : List Char) ++ ['0', '1'] =
      c1 :: c2 :: c3 :: c4 :: c5 :: c6 :: '0' :: '1' :: [] := rfl
  rw [hl]
  have e1 : parseYear (c1 :: c2 :: c3 :: c4 :: c5 :: c6 :: '0' :: '1' :: []) =
      some ((((((c1.toNat - 48) * 10 + (c2.toNat - 48)) * 10 + (c3.toNat - 48)) * 10
          + (c4.toNat - 48) : Nat) : Int), c5 :: c6 :: '0' :: '1' :: []) := by
    rw [parseYear_eq _ (isDigit_ne_space h1) (isDigit_ne_minus h1) (isDigit_ne_plus h1)]
    rw [scanNum_four _ h1 h2 h3 h4]
    simp only [Option.map_some']
  have e2 : parseNum2 (c5 :: c6 :: '0' :: '1' :: []) =
      some ((c5.toNat - 48) * 10 + (c6.toNat - 48), ['0', '1']) := by
    unfold parseNum2
    rw [dropSpaces_cons _ (isDigit_ne_space h5)]
    exact scanNum_two _ h5 h6
  have e3 : parseNum2 ['0', '1'] = some (1, []) := by decide
  simp only [parseYmd, e1, e2, e3]
  rw [if_pos trivial]
  unfold fromYmdOpt
  rw [if_neg]
  intro hv
  exact hm ⟨hv.2.2.1, hv.2.2.2.1⟩

/-- Claim C6 (amended): identifierOf and parseIdentifier are mutually inverse
on the valid domain (partition keys whose identifier is the plain 6-digit
year+month form, i.e. years 0..=9999), and a six-character all-digit
identifier whose month part is not 01..12 parses to none.  Malformed inputs
of other shapes are, however, not always rejected: the parser's
per-field greedy scanning can accept them (see the counterexample). -/
theorem identifier_roundtrip_amended :
    (∀ k : NaiveDate, k.Valid → k.day = 1 → 0 ≤ k.year → k.year ≤ 9999 →
        stemToPartitionKey (formatYm k) = some k)
    ∧ (∀ c1 c2 c3 c4 c5 c6 : Char,
        c1.isDigit = true → c2.isDigit = true → c3.isDigit = true →
        c4.isDigit = true → c5.isDigit = true → c6.isDigit = true →
        ¬(1 ≤ (c5.toNat - 48) * 10 + (c6.toNat - 48)
            ∧ (c5.toNat - 48) * 10 + (c6.toNat - 48) ≤ 12) →
        stemToPartitionKey [c1, c2, c3, c4, c5, c6] = none) :=
  ⟨stem_of_formatYm, six_digit_invalid_month⟩

/-- Witness for the amended C6: the key 2024-03-01 roundtrips through its
identifier "202403", and the invalid-month identifier "202413" parses to
none. -/
theorem identifier_roundtrip_amended_witness :
    stemToPartitionKey (formatYm ⟨2024, 3, 1⟩) = some ⟨2024, 3, 1⟩
    ∧ stemToPartitionKey ['2', '0', '2', '4', '1', '3'] = none :=
  ⟨identifier_roundtrip_amended.1 ⟨2024, 3, 1⟩ (by decide) rfl (by decide) (by decide),
    identifier_roundtrip_amended.2 '2' '0' '2' '4' '1' '3' (by decide) (by decide)
      (by decide) (by decide) (by decide) (by decide) (by decide)⟩

/-- Counterexample for C6 as stated: the malformed identifiers "20241"
(wrong length: five characters) and " 20241" (leading space, a non-digit)
do not parse to none: both yield the key 2024-10-01, because the year scan
takes at most four digits, the month scan greedily takes the next two, and
numeric fields skip leading spaces. -/
theorem identifier_parse_counterexample :
    stemToPartitionKey ['2', '0', '2', '4', '1'] = some ⟨2024, 10, 1⟩
    ∧ stemToPartitionKey (spaceChar :: ['2', '0', '2', '4', '1']) =
        some ⟨2024, 10, 1⟩ :=
  ⟨rfl, rfl⟩

end Sharding
